import Mathlib

/-!
Verification of the in-browser 3D rig-and-project renderer of the Animator
component: the skeleton model, linear-blend-skinning approximation, camera
projection, painter's-algorithm renderer, orbit/gizmo interaction handlers,
and pose/view presets.  Numbers of the host language are modelled as
elements of a linear ordered field (rationals for the exact state-machine
claims, reals where the projection's trigonometry is involved).
-/

namespace Moxie

/-- The `Vector3` record of the source: `{ x: number; y: number; z: number }`. -/
structure Vec3 (α : Type) where
  x : α
  y : α
  z : α
deriving DecidableEq, Repr

/-- The `Bone` union type: the six bone identifier strings. -/
inductive Bone
  | head | torso | leftArm | rightArm | leftLeg | rightLeg
deriving DecidableEq, Repr, Fintype

/-- The string value carried by each member of the `Bone` union. -/
def Bone.str : Bone → String
  | .head => "head"
  | .torso => "torso"
  | .leftArm => "left-arm"
  | .rightArm => "right-arm"
  | .leftLeg => "left-leg"
  | .rightLeg => "right-leg"

/-- JavaScript `s.includes(pat)`: `pat` occurs as a contiguous substring of `s`. -/
def strIncludes (s pat : String) : Bool :=
  (List.range (s.length + 1)).any (fun i => pat.toList.isPrefixOf (s.toList.drop i))

/-- One entry of the `BONES` table: id, label, optional parent, default
position and Y-influence interval. -/
structure BoneDef (α : Type) where
  id : Bone
  label : String
  parent : Option Bone
  defaultPos : Vec3 α
  influenceY : α × α
deriving DecidableEq, Repr

/-- `{ id: 'head', label: 'Head', defaultPos: {x:0, y:1.6, z:0}, influenceY: [1.4, 2.0] }` -/
def boneHead (α : Type) [LinearOrderedField α] : BoneDef α :=
  ⟨Bone.head, "Head", none, ⟨0, 16/10, 0⟩, (14/10, 2)⟩

/-- `{ id: 'torso', label: 'Torso', defaultPos: {x:0, y:1.0, z:0}, influenceY: [0.6, 1.4] }` -/
def boneTorso (α : Type) [LinearOrderedField α] : BoneDef α :=
  ⟨Bone.torso, "Torso", none, ⟨0, 1, 0⟩, (6/10, 14/10)⟩

/-- `{ id: 'left-arm', label: 'Arm.L', parent: 'torso', defaultPos: {x:-0.6, y:1.3, z:0}, influenceY: [1.1, 1.5] }` -/
def boneArmL (α : Type) [LinearOrderedField α] : BoneDef α :=
  ⟨Bone.leftArm, "Arm.L", some Bone.torso, ⟨-6/10, 13/10, 0⟩, (11/10, 15/10)⟩

/-- `{ id: 'right-arm', label: 'Arm.R', parent: 'torso', defaultPos: {x:0.6, y:1.3, z:0}, influenceY: [1.1, 1.5] }` -/
def boneArmR (α : Type) [LinearOrderedField α] : BoneDef α :=
  ⟨Bone.rightArm, "Arm.R", some Bone.torso, ⟨6/10, 13/10, 0⟩, (11/10, 15/10)⟩

/-- `{ id: 'left-leg', label: 'Leg.L', parent: 'torso', defaultPos: {x:-0.3, y:0.5, z:0}, influenceY: [0, 0.7] }` -/
def boneLegL (α : Type) [LinearOrderedField α] : BoneDef α :=
  ⟨Bone.leftLeg, "Leg.L", some Bone.torso, ⟨-3/10, 5/10, 0⟩, (0, 7/10)⟩

/-- `{ id: 'right-leg', label: 'Leg.R', parent: 'torso', defaultPos: {x:0.3, y:0.5, z:0}, influenceY: [0, 0.7] }` -/
def boneLegR (α : Type) [LinearOrderedField α] : BoneDef α :=
  ⟨Bone.rightLeg, "Leg.R", some Bone.torso, ⟨3/10, 5/10, 0⟩, (0, 7/10)⟩

/-- The `BONES` constant of the source (identical in both Animator variants). -/
def BONES (α : Type) [LinearOrderedField α] : List (BoneDef α) :=
  [boneHead α, boneTorso α, boneArmL α, boneArmR α, boneLegL α, boneLegR α]

/-- Functional update of a bone-position record, as performed by the spread
`{ ...prev, [id]: v }`. -/
def updateBone {α : Type} (st : Bone → Vec3 α) (b : Bone) (v : Vec3 α) :
    Bone → Vec3 α :=
  fun b2 => if b2 = b then v else st b2

/-- The initial bone-position record:
`BONES.reduce((acc, bone) => ({ ...acc, [bone.id]: { ...bone.defaultPos } }), {})`. -/
def initBonePositions (α : Type) [LinearOrderedField α] : Bone → Vec3 α :=
  (BONES α).foldl (fun acc bone => updateBone acc bone.id bone.defaultPos)
    (fun _ => ⟨0, 0, 0⟩)

/-- One iteration of the `BONES.forEach` loop inside `getSkinnedVertex`:
the accumulator carries the running `influence` vector and `weightTotal`. -/
def skinStep {α : Type} [LinearOrderedField α] (bp : Bone → Vec3 α)
    (vx vy : α) (acc : Vec3 α × ℕ) (bone : BoneDef α) : Vec3 α × ℕ :=
  let minY := bone.influenceY.1
  let maxY := bone.influenceY.2
  if vy ≥ minY ∧ vy ≤ maxY then
    let isLeft := strIncludes bone.id.str "left" || strIncludes bone.id.str ".L"
    let isRight := strIncludes bone.id.str "right" || strIncludes bone.id.str ".R"
    if isLeft = true ∧ vx > 0 then acc
    else if isRight = true ∧ vx < 0 then acc
    else
      let currentPos := bp bone.id
      let dx := currentPos.x - bone.defaultPos.x
      let dy := currentPos.y - bone.defaultPos.y
      let dz := currentPos.z - bone.defaultPos.z
      (⟨acc.1.x + dx, acc.1.y + dy, acc.1.z + dz⟩, acc.2 + 1)
  else acc

/-- `getSkinnedVertex` of the source: accumulate the offsets of all
influencing bones and add them to the vertex when `weightTotal > 0`. -/
def getSkinnedVertex {α : Type} [LinearOrderedField α] (bp : Bone → Vec3 α)
    (v : Vec3 α) : Vec3 α :=
  let r := (BONES α).foldl (skinStep bp v.x v.y) (⟨0, 0, 0⟩, 0)
  if 0 < r.2 then ⟨v.x + r.1.x, v.y + r.1.y, v.z + r.1.z⟩ else v

/-- Characterisation of the guard of `skinStep`: a bone contributes its
offset exactly when the vertex's Y lies in the bone's influence interval and
the left/right side check does not reject the vertex. -/
def contributes {α : Type} [LinearOrderedField α] (vx vy : α)
    (bone : BoneDef α) : Bool :=
  (decide (vy ≥ bone.influenceY.1) && decide (vy ≤ bone.influenceY.2))
    && !((strIncludes bone.id.str "left" || strIncludes bone.id.str ".L")
          && decide (vx > 0))
    && !((strIncludes bone.id.str "right" || strIncludes bone.id.str ".R")
          && decide (vx < 0))

/-- The displacement of a bone from its default pose. -/
def boneOffset {α : Type} [LinearOrderedField α] (bp : Bone → Vec3 α)
    (bone : BoneDef α) : Vec3 α :=
  ⟨(bp bone.id).x - bone.defaultPos.x,
   (bp bone.id).y - bone.defaultPos.y,
   (bp bone.id).z - bone.defaultPos.z⟩

/-- Componentwise sum of the offsets of a list of bones. -/
def offsetSum {α : Type} [LinearOrderedField α] (bp : Bone → Vec3 α) :
    List (BoneDef α) → Vec3 α
  | [] => ⟨0, 0, 0⟩
  | bone :: rest =>
      let s := offsetSum bp rest
      ⟨(boneOffset bp bone).x + s.x, (boneOffset bp bone).y + s.y,
       (boneOffset bp bone).z + s.z⟩

lemma skinStep_eq {α : Type} [LinearOrderedField α] (bp : Bone → Vec3 α)
    (vx vy : α) (acc : Vec3 α × ℕ) (bone : BoneDef α) :
    skinStep bp vx vy acc bone =
      if contributes vx vy bone then
        (⟨acc.1.x + (boneOffset bp bone).x, acc.1.y + (boneOffset bp bone).y,
          acc.1.z + (boneOffset bp bone).z⟩, acc.2 + 1)
      else acc := by
  simp only [skinStep, contributes, boneOffset]
  by_cases h1 : vy ≥ bone.influenceY.1 ∧ vy ≤ bone.influenceY.2
  · by_cases h2 : (strIncludes bone.id.str "left" || strIncludes bone.id.str ".L") = true ∧ vx > 0
    · simp [h1, h1.1, h1.2, h2, h2.1, h2.2]
    · by_cases h3 : (strIncludes bone.id.str "right" || strIncludes bone.id.str ".R") = true ∧ vx < 0
      · simp only [if_pos h1, if_neg h2, if_pos h3]
        have : ¬ ((strIncludes bone.id.str "right" || strIncludes bone.id.str ".R")
            && decide (vx < 0)) = false := by
          simp [h3.1, h3.2]
        simp [h1.1, h1.2, this]
      · simp only [if_pos h1, if_neg h2, if_neg h3]
        have hl : ((strIncludes bone.id.str "left" || strIncludes bone.id.str ".L")
            && decide (vx > 0)) = false := by
          rcases Bool.eq_false_or_eq_true (strIncludes bone.id.str "left" || strIncludes bone.id.str ".L") with h | h
          · have hx : ¬ vx > 0 := fun hx => h2 ⟨h, hx⟩
            simp [h, hx]
          · simp [h]
        have hr : ((strIncludes bone.id.str "right" || strIncludes bone.id.str ".R")
            && decide (vx < 0)) = false := by
          rcases Bool.eq_false_or_eq_true (strIncludes bone.id.str "right" || strIncludes bone.id.str ".R") with h | h
          · have hx : ¬ vx < 0 := fun hx => h3 ⟨h, hx⟩
            simp [h, hx]
          · simp [h]
        simp [h1.1, h1.2, hl, hr]
  · have : ¬ (vy ≥ bone.influenceY.1 ∧ vy ≤ bone.influenceY.2) := h1
    rw [if_neg this]
    rcases Classical.em (vy ≥ bone.influenceY.1) with ha | ha
    · have hb : ¬ vy ≤ bone.influenceY.2 := fun hb => this ⟨ha, hb⟩
      simp [ha, hb]
    · simp [ha]

lemma foldl_skinStep {α : Type} [LinearOrderedField α] (bp : Bone → Vec3 α)
    (vx vy : α) (l : List (BoneDef α)) (a : Vec3 α) (w : ℕ) :
    l.foldl (skinStep bp vx vy) (a, w) =
      (⟨a.x + (offsetSum bp (l.filter (contributes vx vy))).x,
        a.y + (offsetSum bp (l.filter (contributes vx vy))).y,
        a.z + (offsetSum bp (l.filter (contributes vx vy))).z⟩,
       w + (l.filter (contributes vx vy)).length) := by
  induction l generalizing a w with
  | nil => simp [offsetSum]
  | cons bone rest ih =>
      rw [List.foldl_cons, skinStep_eq]
      by_cases hc : contributes vx vy bone
      · rw [if_pos hc, ih]
        simp only [List.filter_cons, hc, if_true, List.length_cons, offsetSum,
          Prod.mk.injEq, Vec3.mk.injEq]
        refine ⟨⟨by ring, by ring, by ring⟩, by omega⟩
      · rw [if_neg hc, ih]
        simp only [List.filter_cons]
        simp [hc]

/-- Master description of `getSkinnedVertex`: the skinned vertex is the
original vertex translated by the sum of the offsets of the contributing
bones (and is the original vertex when no bone contributes). -/
lemma getSkinnedVertex_eq {α : Type} [LinearOrderedField α]
    (bp : Bone → Vec3 α) (v : Vec3 α) :
    getSkinnedVertex bp v =
      if ((BONES α).filter (contributes v.x v.y)).length = 0 then v
      else
        ⟨v.x + (offsetSum bp ((BONES α).filter (contributes v.x v.y))).x,
         v.y + (offsetSum bp ((BONES α).filter (contributes v.x v.y))).y,
         v.z + (offsetSum bp ((BONES α).filter (contributes v.x v.y))).z⟩ := by
  unfold getSkinnedVertex
  rw [foldl_skinStep]
  by_cases h : ((BONES α).filter (contributes v.x v.y)).length = 0
  · simp [h]
  · have : 0 < ((BONES α).filter (contributes v.x v.y)).length := Nat.pos_of_ne_zero h
    simp [h, this]

lemma contributes_boneHead {α : Type} [LinearOrderedField α] (vx vy : α) :
    contributes vx vy (boneHead α) = true ↔ (14/10 : α) ≤ vy ∧ vy ≤ 2 := by
  have hL : strIncludes Bone.head.str "left" = false := by decide
  have hL2 : strIncludes Bone.head.str ".L" = false := by decide
  have hR : strIncludes Bone.head.str "right" = false := by decide
  have hR2 : strIncludes Bone.head.str ".R" = false := by decide
  simp [contributes, boneHead, hL, hL2, hR, hR2, ge_iff_le]

lemma contributes_boneTorso {α : Type} [LinearOrderedField α] (vx vy : α) :
    contributes vx vy (boneTorso α) = true ↔ (6/10 : α) ≤ vy ∧ vy ≤ 14/10 := by
  have hL : strIncludes Bone.torso.str "left" = false := by decide
  have hL2 : strIncludes Bone.torso.str ".L" = false := by decide
  have hR : strIncludes Bone.torso.str "right" = false := by decide
  have hR2 : strIncludes Bone.torso.str ".R" = false := by decide
  simp [contributes, boneTorso, hL, hL2, hR, hR2, ge_iff_le]

lemma contributes_boneArmL {α : Type} [LinearOrderedField α] (vx vy : α) :
    contributes vx vy (boneArmL α) = true ↔
      ((11/10 : α) ≤ vy ∧ vy ≤ 15/10) ∧ vx ≤ 0 := by
  have hL : strIncludes Bone.leftArm.str "left" = true := by decide
  have hR : strIncludes Bone.leftArm.str "right" = false := by decide
  have hR2 : strIncludes Bone.leftArm.str ".R" = false := by decide
  simp [contributes, boneArmL, hL, hR, hR2, ge_iff_le, not_lt]

lemma contributes_boneArmR {α : Type} [LinearOrderedField α] (vx vy : α) :
    contributes vx vy (boneArmR α) = true ↔
      ((11/10 : α) ≤ vy ∧ vy ≤ 15/10) ∧ 0 ≤ vx := by
  have hL : strIncludes Bone.rightArm.str "left" = false := by decide
  have hL2 : strIncludes Bone.rightArm.str ".L" = false := by decide
  have hR : strIncludes Bone.rightArm.str "right" = true := by decide
  simp [contributes, boneArmR, hL, hL2, hR, ge_iff_le, not_lt]

lemma contributes_boneLegL {α : Type} [LinearOrderedField α] (vx vy : α) :
    contributes vx vy (boneLegL α) = true ↔
      ((0 : α) ≤ vy ∧ vy ≤ 7/10) ∧ vx ≤ 0 := by
  have hL : strIncludes Bone.leftLeg.str "left" = true := by decide
  have hR : strIncludes Bone.leftLeg.str "right" = false := by decide
  have hR2 : strIncludes Bone.leftLeg.str ".R" = false := by decide
  simp [contributes, boneLegL, hL, hR, hR2, ge_iff_le, not_lt]

lemma contributes_boneLegR {α : Type} [LinearOrderedField α] (vx vy : α) :
    contributes vx vy (boneLegR α) = true ↔
      ((0 : α) ≤ vy ∧ vy ≤ 7/10) ∧ 0 ≤ vx := by
  have hL : strIncludes Bone.rightLeg.str "left" = false := by decide
  have hL2 : strIncludes Bone.rightLeg.str ".L" = false := by decide
  have hR : strIncludes Bone.rightLeg.str "right" = true := by decide
  simp [contributes, boneLegR, hL, hL2, hR, ge_iff_le, not_lt]

lemma initBonePositions_apply {α : Type} [LinearOrderedField α] :
    ∀ bone ∈ BONES α, initBonePositions α bone.id = bone.defaultPos := by
  intro bone hb
  simp only [BONES, List.mem_cons, List.not_mem_nil, or_false] at hb
  rcases hb with h | h | h | h | h | h <;> subst h <;> rfl

lemma offsetSum_eq_zero {α : Type} [LinearOrderedField α] (bp : Bone → Vec3 α)
    (l : List (BoneDef α)) (h : ∀ bone ∈ l, boneOffset bp bone = ⟨0, 0, 0⟩) :
    offsetSum bp l = ⟨0, 0, 0⟩ := by
  induction l with
  | nil => rfl
  | cons bone rest ih =>
      have hb := h bone (List.mem_cons_self bone rest)
      have hr := ih (fun b hbr => h b (List.mem_cons_of_mem bone hbr))
      simp [offsetSum, hb, hr]

/-- If every bone of `BONES` currently sits at its default position, skinning
leaves every vertex unchanged. -/
lemma getSkinnedVertex_of_default {α : Type} [LinearOrderedField α]
    (bp : Bone → Vec3 α) (h : ∀ bone ∈ BONES α, bp bone.id = bone.defaultPos)
    (v : Vec3 α) : getSkinnedVertex bp v = v := by
  rw [getSkinnedVertex_eq]
  have hz : offsetSum bp ((BONES α).filter (contributes v.x v.y)) = ⟨0, 0, 0⟩ := by
    refine offsetSum_eq_zero bp _ (fun bone hb => ?_)
    have hmem : bone ∈ BONES α := (List.mem_filter.mp hb).1
    simp [boneOffset, h bone hmem]
  by_cases hlen : ((BONES α).filter (contributes v.x v.y)).length = 0
  · simp [hlen]
  · simp [hlen, hz]

/-- **C6** (confirmed). Skinning is a no-op at the default pose: with every
bone's current position equal to its default position (the initial
bone-position record), `getSkinnedVertex` returns every vertex unchanged in
all three coordinates. -/
theorem claim6 (v : Vec3 ℚ) : getSkinnedVertex (initBonePositions ℚ) v = v :=
  getSkinnedVertex_of_default _ initBonePositions_apply v

lemma init_head : initBonePositions ℚ Bone.head = ⟨0, 16/10, 0⟩ := rfl

lemma init_torso : initBonePositions ℚ Bone.torso = ⟨0, 1, 0⟩ := rfl

lemma init_armL : initBonePositions ℚ Bone.leftArm = ⟨-6/10, 13/10, 0⟩ := rfl

lemma init_armR : initBonePositions ℚ Bone.rightArm = ⟨6/10, 13/10, 0⟩ := rfl

lemma init_legL : initBonePositions ℚ Bone.leftLeg = ⟨-3/10, 5/10, 0⟩ := rfl

lemma init_legR : initBonePositions ℚ Bone.rightLeg = ⟨3/10, 5/10, 0⟩ := rfl

/-- A bone-position record in which only `right-arm` has been displaced from
its default `{x:0.6, y:1.3, z:0}` (raised by `0.5` along Y). -/
def bpArmRRaised : Bone → Vec3 ℚ :=
  updateBone (initBonePositions ℚ) Bone.rightArm ⟨6/10, 18/10, 0⟩

/-- **C1** (counterexample). The claim says a bone whose id contains
`"right"` contributes no offset when the vertex's `x ≤ 0`, in particular at
`x = 0`.  The code only skips right bones when `x < 0`: with every bone at
its default except `right-arm` (raised by `0.5`), the vertex `(0, 1.3, 0)`
(whose `x = 0 ≤ 0`) is displaced to `(0, 1.8, 0)` by `right-arm`'s offset,
so the claim as stated is false. -/
theorem claim1_counterexample :
    strIncludes Bone.rightArm.str "right" = true ∧
    (∀ b : Bone, b ≠ Bone.rightArm → bpArmRRaised b = initBonePositions ℚ b) ∧
    getSkinnedVertex bpArmRRaised ⟨0, 13/10, 0⟩ = ⟨0, 18/10, 0⟩ ∧
    ¬ (∀ (v : Vec3 ℚ) (bone : BoneDef ℚ),
        bone ∈ BONES ℚ → strIncludes bone.id.str "right" = true → v.x ≤ 0 →
        contributes v.x v.y bone = false) := by
  have hArmR : contributes (0 : ℚ) (13/10) (boneArmR ℚ) = true := by
    rw [contributes_boneArmR]; norm_num
  refine ⟨by decide, ?_, ?_, ?_⟩
  · intro b hb
    simp [bpArmRRaised, updateBone, hb]
  · have hHead : contributes (0 : ℚ) (13/10) (boneHead ℚ) = false := by
      rw [← Bool.not_eq_true, contributes_boneHead]; norm_num
    have hTorso : contributes (0 : ℚ) (13/10) (boneTorso ℚ) = true := by
      rw [contributes_boneTorso]; norm_num
    have hArmL : contributes (0 : ℚ) (13/10) (boneArmL ℚ) = true := by
      rw [contributes_boneArmL]; norm_num
    have hLegL : contributes (0 : ℚ) (13/10) (boneLegL ℚ) = false := by
      rw [← Bool.not_eq_true, contributes_boneLegL]; norm_num
    have hLegR : contributes (0 : ℚ) (13/10) (boneLegR ℚ) = false := by
      rw [← Bool.not_eq_true, contributes_boneLegR]; norm_num
    have bT : bpArmRRaised Bone.torso = ⟨0, 1, 0⟩ := rfl
    have bL : bpArmRRaised Bone.leftArm = ⟨-6/10, 13/10, 0⟩ := rfl
    have bR : bpArmRRaised Bone.rightArm = ⟨6/10, 18/10, 0⟩ := rfl
    rw [getSkinnedVertex_eq]
    simp only [BONES, List.filter_cons, List.filter_nil, hHead, hTorso, hArmL,
      hArmR, hLegL, hLegR, if_true, if_false, Bool.false_eq_true,
      List.length_cons, List.length_nil]
    norm_num [offsetSum, boneOffset, bT, bL, bR, boneTorso, boneArmL, boneArmR]
  · intro h
    have := h ⟨0, 13/10, 0⟩ (boneArmR ℚ) (by simp [BONES]) (by decide) le_rfl
    rw [hArmR] at this
    exact absurd this (by decide)

/-- **C1** (amended). Left/right side isolation as the code implements it:
a bone whose id contains `"left"` contributes no offset when the vertex's
`x > 0`; a bone whose id contains `"right"` contributes no offset when the
vertex's `x < 0` (at `x = 0` both sides pass the check); a bone with
neither marker contributes exactly when the vertex's `y` lies in its
influence interval, regardless of `x`. -/
theorem claim1_amended :
    ∀ (v : Vec3 ℚ) (bone : BoneDef ℚ), bone ∈ BONES ℚ →
      ((strIncludes bone.id.str "left" = true → 0 < v.x →
          contributes v.x v.y bone = false)
       ∧ (strIncludes bone.id.str "right" = true → v.x < 0 →
          contributes v.x v.y bone = false)
       ∧ (strIncludes bone.id.str "left" = false →
          strIncludes bone.id.str "right" = false →
          (contributes v.x v.y bone = true ↔
            bone.influenceY.1 ≤ v.y ∧ v.y ≤ bone.influenceY.2))) := by
  intro v bone hb
  simp only [BONES, List.mem_cons, List.not_mem_nil, or_false] at hb
  rcases hb with h | h | h | h | h | h <;> subst h
  · exact ⟨fun hf => absurd hf (by decide), fun hf => absurd hf (by decide),
      fun _ _ => by rw [contributes_boneHead]; exact Iff.rfl⟩
  · exact ⟨fun hf => absurd hf (by decide), fun hf => absurd hf (by decide),
      fun _ _ => by rw [contributes_boneTorso]; exact Iff.rfl⟩
  · refine ⟨fun _ hx => ?_, fun hf => absurd hf (by decide),
      fun hf _ => absurd hf (by decide)⟩
    rw [← Bool.not_eq_true, contributes_boneArmL]
    rintro ⟨-, hle⟩; linarith
  · refine ⟨fun hf => absurd hf (by decide), fun _ hx => ?_,
      fun _ hf => absurd hf (by decide)⟩
    rw [← Bool.not_eq_true, contributes_boneArmR]
    rintro ⟨-, hle⟩; linarith
  · refine ⟨fun _ hx => ?_, fun hf => absurd hf (by decide),
      fun hf _ => absurd hf (by decide)⟩
    rw [← Bool.not_eq_true, contributes_boneLegL]
    rintro ⟨-, hle⟩; linarith
  · refine ⟨fun hf => absurd hf (by decide), fun _ hx => ?_,
      fun _ hf => absurd hf (by decide)⟩
    rw [← Bool.not_eq_true, contributes_boneLegR]
    rintro ⟨-, hle⟩; linarith

/-- Witness for `claim1_amended` at the concrete vertex `(1, 1.3, 0)` and
the bone `left-arm`. -/
theorem claim1_witness :
    contributes (1 : ℚ) (13/10) (boneArmL ℚ) = false :=
  (claim1_amended ⟨1, 13/10, 0⟩ (boneArmL ℚ) (by simp [BONES])).1
    (by decide) (by norm_num)

/-- The camera-orbit branch of `handleMouseMove`:
`x: Math.max(-90, Math.min(90, prev.x + dy * 0.5)), y: prev.y + dx * 0.5`. -/
def handleOrbit (rot : ℚ × ℚ) (dx dy : ℚ) : ℚ × ℚ :=
  (max (-90) (min 90 (rot.1 + dy * (5/10))), rot.2 + dx * (5/10))

/-- Fold a sequence of pointer deltas `(dx, dy)` through the orbit handler. -/
def orbitRun (rot : ℚ × ℚ) (ds : List (ℚ × ℚ)) : ℚ × ℚ :=
  ds.foldl (fun r d => handleOrbit r d.1 d.2) rot

/-- The initial camera rotation `{ x: 15, y: 45 }` of the first Animator
variant. -/
def initRotation : ℚ × ℚ := (15, 45)

lemma orbitRun_pitch_bounds (ds : List (ℚ × ℚ)) :
    ∀ r : ℚ × ℚ, -90 ≤ r.1 → r.1 ≤ 90 →
      -90 ≤ (orbitRun r ds).1 ∧ (orbitRun r ds).1 ≤ 90 := by
  induction ds with
  | nil => exact fun r h1 h2 => ⟨h1, h2⟩
  | cons d rest ih =>
      intro r h1 h2
      refine ih _ (le_max_left _ _) ?_
      exact max_le (by norm_num) (min_le_left _ _)

lemma orbitRun_yaw (ds : List (ℚ × ℚ)) :
    ∀ r : ℚ × ℚ, (orbitRun r ds).2 = r.2 + (ds.map (fun d => d.1 * (5/10))).sum := by
  induction ds with
  | nil => intro r; simp [orbitRun]
  | cons d rest ih =>
      intro r
      show (orbitRun (handleOrbit r d.1 d.2) rest).2 = _
      rw [ih]
      simp [handleOrbit]
      ring

/-- **C4** (counterexample). After the single orbit delta `(dx, dy) = (2, 0)`
from the initial camera state `(15, 45)`, the yaw is `46` while the sum of
the applied yaw increments is `1`; `46` is not congruent to `1` modulo
`360`, so the claim that the resulting yaw is congruent mod 360° to the sum
of the applied yaw deltas is false (the initial yaw `45` is left out). -/
theorem claim4_counterexample :
    orbitRun initRotation [(2, 0)] = (15, 46) ∧
    ([((2 : ℚ), (0 : ℚ))].map (fun d => d.1 * (5/10))).sum = 1 ∧
    ¬ ∃ k : ℤ, (46 : ℚ) - 1 = 360 * k := by
  refine ⟨?_, by norm_num, ?_⟩
  · show (max (-90) (min 90 (15 + 0 * (5/10))), (45 : ℚ) + 2 * (5/10)) = _
    norm_num
  · rintro ⟨k, hk⟩
    have h1 : (360 : ℚ) * k = 45 := by linarith
    have h2 : (360 * k : ℤ) = 45 := by exact_mod_cast h1
    omega

/-- **C4** (amended). For every sequence of orbit pointer deltas applied from
the initial camera state `(15, 45)`: the resulting pitch remains within
`[-90, 90]`, and the resulting yaw is never clamped — it equals the initial
yaw `45` plus the sum of the applied yaw increments `dx * 0.5` exactly, so
the yaw minus its initial value is congruent (with quotient `0`) mod 360°
to that sum. -/
theorem claim4_amended (ds : List (ℚ × ℚ)) :
    (-90 ≤ (orbitRun initRotation ds).1 ∧ (orbitRun initRotation ds).1 ≤ 90)
    ∧ (orbitRun initRotation ds).2 = 45 + (ds.map (fun d => d.1 * (5/10))).sum
    ∧ ∃ k : ℤ, ((orbitRun initRotation ds).2 - 45)
        - (ds.map (fun d => d.1 * (5/10))).sum = 360 * k := by
  refine ⟨orbitRun_pitch_bounds ds initRotation (by norm_num [initRotation])
      (by norm_num [initRotation]),
    orbitRun_yaw ds initRotation, ⟨0, ?_⟩⟩
  rw [orbitRun_yaw ds initRotation]
  show (45 : ℚ) + _ - 45 - _ = 360 * (0 : ℤ)
  push_cast
  ring

/-- One entry of the `POSES` table of the richer Animator variant. -/
structure PoseDef where
  id : String
  label : String
deriving DecidableEq, Repr

/-- The `POSES` constant. -/
def POSES : List PoseDef :=
  [⟨"t-pose", "T-Pose"⟩, ⟨"standing", "Standing"⟩, ⟨"walking", "Walking"⟩,
   ⟨"running", "Running"⟩, ⟨"action", "Action"⟩, ⟨"sitting", "Sitting"⟩]

/-- One entry of the `VIEWS` table: id, label and the camera rotation pair
`rot = { x: pitch, y: yaw }` it selects. -/
structure ViewDef where
  id : String
  label : String
  rot : ℚ × ℚ
deriving DecidableEq, Repr

/-- The `VIEWS` constant. -/
def VIEWS : List ViewDef :=
  [⟨"front", "Front", (0, 0)⟩, ⟨"isometric", "Isometric", (30, 45)⟩,
   ⟨"side", "Side", (0, 90)⟩, ⟨"back", "Back", (0, 180)⟩,
   ⟨"top", "Top", (90, 0)⟩]

/-- The mutable component state of the richer Animator variant that the
pose/view preset handlers touch. -/
structure AnimatorState where
  rotation : ℚ × ℚ
  cameraZoom : ℚ
  bonePositions : Bone → Vec3 ℚ
  activePose : String
  activeView : String

/-- The initial state of the richer Animator variant: rotation `{x:30, y:45}`,
zoom `1`, default bone positions, pose `t-pose`, view `isometric`. -/
def initialState : AnimatorState :=
  ⟨(30, 45), 1, initBonePositions ℚ, "t-pose", "isometric"⟩

/-- `handlePoseSelect`: records the chosen pose and resets the bone-position
record to the same `BONES.reduce` expression used for the initial state. -/
def handlePoseSelect (pose : String) (st : AnimatorState) : AnimatorState :=
  { st with
    activePose := pose
    bonePositions := initBonePositions ℚ }

/-- `handleViewSelect`: records the chosen view and, when the view id is
found in `VIEWS`, sets the camera rotation to the entry's `rot` pair. -/
def handleViewSelect (view : String) (st : AnimatorState) : AnimatorState :=
  let st1 := { st with activeView := view }
  match VIEWS.find? (fun v => v.id == view) with
  | some viewConfig => { st1 with rotation := viewConfig.rot }
  | none => st1

/-- **C8** (confirmed). Selecting any pose preset resets every bone's
current position to that bone's default position, and the resulting
bone-position state is the same whichever preset is chosen and whatever the
prior state was (selecting "walking" or "running" yields the same layout as
"t-pose"). -/
theorem claim8 (pose : String) (st : AnimatorState) :
    (handlePoseSelect pose st).bonePositions = initBonePositions ℚ
    ∧ (∀ bone ∈ BONES ℚ,
        (handlePoseSelect pose st).bonePositions bone.id = bone.defaultPos)
    ∧ (∀ (pose2 : String) (st2 : AnimatorState),
        (handlePoseSelect pose st).bonePositions
          = (handlePoseSelect pose2 st2).bonePositions) :=
  ⟨rfl, initBonePositions_apply, fun _ _ => rfl⟩

/-- Witness for `claim8`: selecting "walking" from a state whose `right-arm`
was displaced puts `left-arm` back at its default `(-0.6, 1.3, 0)`. -/
theorem claim8_witness :
    (handlePoseSelect "walking"
        { initialState with bonePositions := bpArmRRaised }).bonePositions
      Bone.leftArm = ⟨-6/10, 13/10, 0⟩ :=
  (claim8 "walking" { initialState with bonePositions := bpArmRRaised }).2.1
    (boneArmL ℚ) (by simp [BONES])

/-- **C9** (confirmed). Selecting the "side" view preset sets the camera
rotation to exactly `(pitch, yaw) = (0, 90)`; view-preset selection never
changes any bone position; and in general selecting the view of any `VIEWS`
entry sets the rotation to exactly that entry's declared pair. -/
theorem claim9 :
    (∀ st : AnimatorState, (handleViewSelect "side" st).rotation = (0, 90))
    ∧ (∀ (view : String) (st : AnimatorState),
        (handleViewSelect view st).bonePositions = st.bonePositions)
    ∧ (∀ viewConfig ∈ VIEWS, ∀ st : AnimatorState,
        (handleViewSelect viewConfig.id st).rotation = viewConfig.rot) := by
  refine ⟨fun st => rfl, fun view st => ?_, fun viewConfig hc st => ?_⟩
  · unfold handleViewSelect
    cases h : VIEWS.find? (fun v => v.id == view) <;> simp [h]
  · simp only [VIEWS, List.mem_cons, List.not_mem_nil, or_false] at hc
    rcases hc with h | h | h | h | h <;> subst h <;> rfl

/-- Witness for `claim9`: the "top" preset sets the rotation to `(90, 0)`
without touching bones. -/
theorem claim9_witness :
    (handleViewSelect "top" initialState).rotation = (90, 0) ∧
    (handleViewSelect "top" initialState).bonePositions
      = initialState.bonePositions :=
  ⟨claim9.2.2 ⟨"top", "Top", (90, 0)⟩ (by simp [VIEWS]) initialState,
   claim9.2.1 "top" initialState⟩

/-- Bone positions with `left-arm` displaced by `dL` and `right-arm` by `dR`
from their defaults, every other bone at its default. -/
def bpArms (dL dR : Vec3 ℚ) : Bone → Vec3 ℚ :=
  updateBone
    (updateBone (initBonePositions ℚ) Bone.leftArm
      ⟨-6/10 + dL.x, 13/10 + dL.y, 0 + dL.z⟩)
    Bone.rightArm ⟨6/10 + dR.x, 13/10 + dR.y, 0 + dR.z⟩

/-- **C10** (confirmed). At `x = 0` the side check rejects nothing: every
bone of `BONES` contributes exactly when the vertex's `y` lies in its
influence interval; and when `y` lies in the arms' common range
`[1.1, 1.5]` with both arms displaced (all other bones at default), the
skinned vertex receives the sum of both arms' offsets. -/
theorem claim10 :
    (∀ (v : Vec3 ℚ) (bone : BoneDef ℚ), bone ∈ BONES ℚ → v.x = 0 →
       (contributes v.x v.y bone = true ↔
         bone.influenceY.1 ≤ v.y ∧ v.y ≤ bone.influenceY.2))
    ∧ (∀ (dL dR : Vec3 ℚ) (v : Vec3 ℚ), v.x = 0 →
        (11/10 : ℚ) ≤ v.y → v.y ≤ 15/10 →
        getSkinnedVertex (bpArms dL dR) v =
          ⟨v.x + (dL.x + dR.x), v.y + (dL.y + dR.y), v.z + (dL.z + dR.z)⟩) := by
  constructor
  · intro v bone hb hx
    simp only [BONES, List.mem_cons, List.not_mem_nil, or_false] at hb
    rcases hb with h | h | h | h | h | h <;> subst h
    · rw [hx, contributes_boneHead]; simp [boneHead]
    · rw [hx, contributes_boneTorso]; simp [boneTorso]
    · rw [hx, contributes_boneArmL]; simp [boneArmL]
    · rw [hx, contributes_boneArmR]; simp [boneArmR]
    · rw [hx, contributes_boneLegL]; simp [boneLegL]
    · rw [hx, contributes_boneLegR]; simp [boneLegR]
  · intro dL dR v hx h1 h2
    have vH : bpArms dL dR Bone.head = ⟨0, 16/10, 0⟩ := rfl
    have vT : bpArms dL dR Bone.torso = ⟨0, 1, 0⟩ := rfl
    have vAL : bpArms dL dR Bone.leftArm
        = ⟨-6/10 + dL.x, 13/10 + dL.y, 0 + dL.z⟩ := rfl
    have vAR : bpArms dL dR Bone.rightArm
        = ⟨6/10 + dR.x, 13/10 + dR.y, 0 + dR.z⟩ := rfl
    have hAL : contributes v.x v.y (boneArmL ℚ) = true := by
      rw [contributes_boneArmL]; exact ⟨⟨h1, h2⟩, hx.le⟩
    have hAR : contributes v.x v.y (boneArmR ℚ) = true := by
      rw [contributes_boneArmR]; exact ⟨⟨h1, h2⟩, hx.ge⟩
    have hLL : contributes v.x v.y (boneLegL ℚ) = false := by
      rw [← Bool.not_eq_true, contributes_boneLegL]
      rintro ⟨⟨-, hle⟩, -⟩; linarith
    have hLR : contributes v.x v.y (boneLegR ℚ) = false := by
      rw [← Bool.not_eq_true, contributes_boneLegR]
      rintro ⟨⟨-, hle⟩, -⟩; linarith
    rcases le_or_lt v.y (14/10) with hy1 | hy1
    · have hT : contributes v.x v.y (boneTorso ℚ) = true := by
        rw [contributes_boneTorso]; exact ⟨by linarith, hy1⟩
      rcases le_or_lt (14/10 : ℚ) v.y with hy2 | hy2
      · have hH : contributes v.x v.y (boneHead ℚ) = true := by
          rw [contributes_boneHead]; exact ⟨hy2, by linarith⟩
        rw [getSkinnedVertex_eq]
        simp only [BONES, List.filter_cons, List.filter_nil, hH, hT, hAL, hAR,
          hLL, hLR, if_true, if_false, Bool.false_eq_true, List.length_cons,
          List.length_nil]
        norm_num [offsetSum, boneOffset, vH, vT, vAL, vAR, boneHead, boneTorso,
          boneArmL, boneArmR, Vec3.mk.injEq]
      · have hH : contributes v.x v.y (boneHead ℚ) = false := by
          rw [← Bool.not_eq_true, contributes_boneHead]
          rintro ⟨hge, -⟩; linarith
        rw [getSkinnedVertex_eq]
        simp only [BONES, List.filter_cons, List.filter_nil, hH, hT, hAL, hAR,
          hLL, hLR, if_true, if_false, Bool.false_eq_true, List.length_cons,
          List.length_nil]
        norm_num [offsetSum, boneOffset, vT, vAL, vAR, boneTorso,
          boneArmL, boneArmR, Vec3.mk.injEq]
    · have hT : contributes v.x v.y (boneTorso ℚ) = false := by
        rw [← Bool.not_eq_true, contributes_boneTorso]
        rintro ⟨-, hle⟩; linarith
      have hH : contributes v.x v.y (boneHead ℚ) = true := by
        rw [contributes_boneHead]; exact ⟨le_of_lt hy1, by linarith⟩
      rw [getSkinnedVertex_eq]
      simp only [BONES, List.filter_cons, List.filter_nil, hH, hT, hAL, hAR,
        hLL, hLR, if_true, if_false, Bool.false_eq_true, List.length_cons,
        List.length_nil]
      norm_num [offsetSum, boneOffset, vH, vAL, vAR, boneHead,
        boneArmL, boneArmR, Vec3.mk.injEq]

/-- Witness for `claim10` at the vertex `(0, 1.2, 5)` with the arms raised
by `0.2` and `0.3`: both arms contribute and the vertex moves up by `0.5`. -/
theorem claim10_witness :
    contributes (0 : ℚ) (12/10) (boneArmR ℚ) = true ∧
    getSkinnedVertex (bpArms ⟨0, 2/10, 0⟩ ⟨0, 3/10, 0⟩) ⟨0, 12/10, 5⟩
      = ⟨0, 17/10, 5⟩ := by
  constructor
  · exact (claim10.1 ⟨0, 12/10, 5⟩ (boneArmR ℚ) (by simp [BONES]) rfl).mpr
      (by norm_num [boneArmR])
  · have h := claim10.2 ⟨0, 2/10, 0⟩ ⟨0, 3/10, 0⟩ ⟨0, 12/10, 5⟩ rfl
      (by norm_num) (by norm_num)
    rw [h]
    simp only [Vec3.mk.injEq]
    norm_num

/-- The record returned by `project`: screen `x`/`y`, the rotated `z` as
`depth`, and the perspective `scale`. -/
structure Proj where
  x : ℝ
  y : ℝ
  depth : ℝ
  scale : ℝ

/-- Camera state: orbit rotation `{x: pitch, y: yaw}` in degrees, and zoom. -/
structure Camera where
  rotX : ℝ
  rotY : ℝ
  zoom : ℝ

/-- `project` of the source: rotate about Y by the yaw, then about X by the
pitch, then apply the perspective scale `(400 * zoom) / (z2 + 5)` and map to
the screen centred at `(400, 300)` with unit scale `150`. -/
noncomputable def project (cam : Camera) (x y z : ℝ) : Proj :=
  let radY := cam.rotY * Real.pi / 180
  let x1 := x * Real.cos radY - z * Real.sin radY
  let z1 := x * Real.sin radY + z * Real.cos radY
  let radX := cam.rotX * Real.pi / 180
  let y2 := y * Real.cos radX - z1 * Real.sin radX
  let z2 := y * Real.sin radX + z1 * Real.cos radX
  let scale := (400 * cam.zoom) / (z2 + 5)
  ⟨400 + x1 * 150 * scale, 300 - y2 * 150 * scale, z2, scale⟩

/-- The identity camera of the claim: pitch `0`, yaw `0`, zoom `1`. -/
def idCamera : Camera := ⟨0, 0, 1⟩

/-- **C2** (amended). At the identity camera the depth output equals `z`
exactly (no rotation is applied), and the screen coordinates are affine in
`(x, y)` only for each fixed `z`: the coefficients carry the perspective
factor `400 / (z + 5)`, so `screenX = 400 + x * 150 * (400 / (z + 5))` and
`screenY = 300 - y * 150 * (400 / (z + 5))`; they are not one affine
function of `(x, y)` independent of `z`. -/
theorem claim2_amended (x y z : ℝ) :
    (project idCamera x y z).depth = z
    ∧ (project idCamera x y z).x = 400 + x * 150 * (400 / (z + 5))
    ∧ (project idCamera x y z).y = 300 - y * 150 * (400 / (z + 5)) := by
  refine ⟨?_, ?_, ?_⟩ <;>
    simp [project, idCamera, Real.cos_zero, Real.sin_zero]

/-- **C2** (counterexample). The screen coordinates at the identity camera
are not a fixed affine function of `(x, y)`: the points `(1, 0, 0)` and
`(1, 0, 5)` share `(x, y)` but project to screen `x` values `12400` and
`6400` respectively, so no affine coefficients can reproduce both. -/
theorem claim2_counterexample :
    ¬ ∃ a b c d e f : ℝ, ∀ x y z : ℝ,
        (project idCamera x y z).x = a * x + b * y + c ∧
        (project idCamera x y z).y = d * x + e * y + f := by
  rintro ⟨a, b, c, d, e, f, h⟩
  have e1 : (project idCamera 1 0 0).x = 12400 := by
    simp [project, idCamera, Real.cos_zero, Real.sin_zero]
    norm_num
  have e2 : (project idCamera 1 0 5).x = 6400 := by
    simp [project, idCamera, Real.cos_zero, Real.sin_zero]
    norm_num
  have h1 := (h 1 0 0).1
  have h2 := (h 1 0 5).1
  rw [e1] at h1
  rw [e2] at h2
  linarith

/-- The gizmo axis identifier `'x' | 'y' | 'z'`. -/
inductive Axis
  | x | y | z
deriving DecidableEq, Repr

/-- Dynamic member read `v[axis]`. -/
def Vec3.get {α : Type} (v : Vec3 α) : Axis → α
  | .x => v.x
  | .y => v.y
  | .z => v.z

/-- Dynamic member write `{ ...v, [axis]: a }`. -/
def Vec3.set {α : Type} (v : Vec3 α) : Axis → α → Vec3 α
  | .x, a => ⟨a, v.y, v.z⟩
  | .y, a => ⟨v.x, a, v.z⟩
  | .z, a => ⟨v.x, v.y, a⟩

/-- The `gizmoDragRef` payload captured on gizmo mouse-down. -/
structure GizmoDrag where
  startX : ℝ
  startY : ℝ
  startVal : ℝ

/-- `handleGizmoMouseDown`: record the pointer position and the selected
bone's current coordinate along the grabbed axis. -/
def handleGizmoMouseDown (bp : Bone → Vec3 ℝ) (selectedBone : Bone)
    (axis : Axis) (clientX clientY : ℝ) : GizmoDrag :=
  ⟨clientX, clientY, (bp selectedBone).get axis⟩

/-- `handleBoneChange`: write `val` into the selected bone's coordinate along
`axis`, leaving every other bone (and the other two coordinates) unchanged. -/
def handleBoneChange {α : Type} (bp : Bone → Vec3 α) (selectedBone : Bone)
    (axis : Axis) (val : α) : Bone → Vec3 α :=
  updateBone bp selectedBone ((bp selectedBone).set axis val)

/-- The 2D screen-space direction vector of the active axis: the projection
of a point `0.5` further along the axis minus the projection of the bone's
position. -/
noncomputable def axisScreenVec (cam : Camera) (bp : Bone → Vec3 ℝ)
    (selectedBone : Bone) (axis : Axis) : ℝ × ℝ :=
  let pos := bp selectedBone
  let origin := project cam pos.x pos.y pos.z
  let axisVec := pos.set axis (pos.get axis + 5/10)
  let projectedAxis := project cam axisVec.x axisVec.y axisVec.z
  (projectedAxis.x - origin.x, projectedAxis.y - origin.y)

/-- `len = Math.sqrt(screenVecX * screenVecX + screenVecY * screenVecY)`. -/
noncomputable def axisScreenLen (cam : Camera) (bp : Bone → Vec3 ℝ)
    (selectedBone : Bone) (axis : Axis) : ℝ :=
  Real.sqrt ((axisScreenVec cam bp selectedBone axis).1
      * (axisScreenVec cam bp selectedBone axis).1
    + (axisScreenVec cam bp selectedBone axis).2
      * (axisScreenVec cam bp selectedBone axis).2)

/-- The new coordinate computed by the gizmo branch of `handleMouseMove`:
normalise the screen vector (guarding `len = 0` with `0`), project the
pointer delta onto it, and scale by `0.005 / zoom` and `1000 / (len || 1)`. -/
noncomputable def gizmoNewVal (cam : Camera) (bp : Bone → Vec3 ℝ)
    (selectedBone : Bone) (axis : Axis) (drag : GizmoDrag)
    (clientX clientY : ℝ) : ℝ :=
  let dx := clientX - drag.startX
  let dy := clientY - drag.startY
  let sv := axisScreenVec cam bp selectedBone axis
  let len := axisScreenLen cam bp selectedBone axis
  let normX := if len > 0 then sv.1 / len else 0
  let normY := if len > 0 then sv.2 / len else 0
  let projection := dx * normX + dy * normY
  let sensitivity := (5/1000) / cam.zoom
  drag.startVal + projection * sensitivity * (1000 / (if len = 0 then 1 else len))

/-- The gizmo branch of `handleMouseMove`: compute the new coordinate and
commit it through `handleBoneChange`. -/
noncomputable def handleGizmoMove (cam : Camera) (bp : Bone → Vec3 ℝ)
    (selectedBone : Bone) (axis : Axis) (drag : GizmoDrag)
    (clientX clientY : ℝ) : Bone → Vec3 ℝ :=
  handleBoneChange bp selectedBone axis
    (gizmoNewVal cam bp selectedBone axis drag clientX clientY)

/-- **C5** (confirmed). If the projected axis-direction vector has zero
screen-space length, normalisation yields the zero vector, the projected
pointer delta is `0`, and the pointer-move event writes back exactly the
drag's start value — so for a drag started at the current position, the
whole bone-position state is unchanged (the model is total: `len || 1`
guards the division). -/
theorem claim5 (cam : Camera) (bp : Bone → Vec3 ℝ) (selectedBone : Bone)
    (axis : Axis) (sx sy cx cy : ℝ)
    (hlen : axisScreenLen cam bp selectedBone axis = 0) :
    handleGizmoMove cam bp selectedBone axis
      (handleGizmoMouseDown bp selectedBone axis sx sy) cx cy = bp := by
  have hnv : gizmoNewVal cam bp selectedBone axis
      ⟨sx, sy, (bp selectedBone).get axis⟩ cx cy = (bp selectedBone).get axis := by
    simp [gizmoNewVal, hlen]
  funext b
  simp only [handleGizmoMove, handleGizmoMouseDown, handleBoneChange,
    updateBone, hnv]
  by_cases hb : b = selectedBone
  · subst hb
    simp only [if_pos rfl]
    cases axis <;> rfl
  · simp [hb]

/-- The top-view camera: pitch `90`, yaw `0`, zoom `1` (the `top` preset). -/
def topCamera : Camera := ⟨90, 0, 1⟩

/-- Witness for `claim5`: with the top-view camera, the Y gizmo axis of the
`head` bone (on the camera axis) projects to a zero-length screen vector,
and a pointer-move during such a drag leaves the state unchanged. -/
theorem claim5_witness :
    axisScreenLen topCamera (initBonePositions ℝ) Bone.head Axis.y = 0 ∧
    handleGizmoMove topCamera (initBonePositions ℝ) Bone.head Axis.y
      (handleGizmoMouseDown (initBonePositions ℝ) Bone.head Axis.y 0 0) 10 20
      = initBonePositions ℝ := by
  have hpos : initBonePositions ℝ Bone.head = ⟨0, 16/10, 0⟩ := rfl
  have hrad : (90 : ℝ) * Real.pi / 180 = Real.pi / 2 := by ring
  have hlen : axisScreenLen topCamera (initBonePositions ℝ) Bone.head Axis.y = 0 := by
    simp only [axisScreenLen, axisScreenVec, project, topCamera, hpos,
      Vec3.get, Vec3.set]
    rw [hrad]
    simp [Real.cos_pi_div_two, Real.sin_pi_div_two, Real.cos_zero,
      Real.sin_zero]
  exact ⟨hlen,
    claim5 topCamera (initBonePositions ℝ) Bone.head Axis.y 0 0 10 20 hlen⟩

/-- **C3** (confirmed). With `left-arm` selected at its default
`(-0.6, 1.3, 0)` and a Y-axis gizmo drag whose sensitivity formula maps the
pointer delta to `+0.4` (i.e. the computed new value is `1.3 + 0.4`):
`left-arm` ends at `y = 1.7` with `x`/`z` unchanged, every other bone is
unchanged, and the next skin pass shifts every vertex with `x ≤ 0` and `y`
in `[1.1, 1.5]` upward by exactly `0.4`. -/
theorem claim3 (cam : Camera) (sx sy cx cy : ℝ)
    (h : gizmoNewVal cam (initBonePositions ℝ) Bone.leftArm Axis.y
        (handleGizmoMouseDown (initBonePositions ℝ) Bone.leftArm Axis.y sx sy)
        cx cy = 13/10 + 4/10) :
    (handleGizmoMove cam (initBonePositions ℝ) Bone.leftArm Axis.y
        (handleGizmoMouseDown (initBonePositions ℝ) Bone.leftArm Axis.y sx sy)
        cx cy) Bone.leftArm = ⟨-6/10, 17/10, 0⟩
    ∧ (∀ b : Bone, b ≠ Bone.leftArm →
        (handleGizmoMove cam (initBonePositions ℝ) Bone.leftArm Axis.y
          (handleGizmoMouseDown (initBonePositions ℝ) Bone.leftArm Axis.y sx sy)
          cx cy) b = initBonePositions ℝ b)
    ∧ (∀ v : Vec3 ℝ, v.x ≤ 0 → (11/10 : ℝ) ≤ v.y → v.y ≤ 15/10 →
        getSkinnedVertex
          (handleGizmoMove cam (initBonePositions ℝ) Bone.leftArm Axis.y
            (handleGizmoMouseDown (initBonePositions ℝ) Bone.leftArm Axis.y
              sx sy) cx cy) v
          = ⟨v.x, v.y + 4/10, v.z⟩) := by
  have hbp : handleGizmoMove cam (initBonePositions ℝ) Bone.leftArm Axis.y
      (handleGizmoMouseDown (initBonePositions ℝ) Bone.leftArm Axis.y sx sy)
      cx cy
      = updateBone (initBonePositions ℝ) Bone.leftArm ⟨-6/10, 17/10, 0⟩ := by
    funext b
    simp only [handleGizmoMove, handleBoneChange, h, updateBone]
    by_cases hb : b = Bone.leftArm
    · subst hb
      simp only [if_pos rfl]
      show (initBonePositions ℝ Bone.leftArm).set Axis.y (13/10 + 4/10) = _
      have hv : initBonePositions ℝ Bone.leftArm = ⟨-6/10, 13/10, 0⟩ := rfl
      rw [hv]
      simp only [Vec3.set, Vec3.mk.injEq]
      norm_num
    · simp [hb]
  have uH : (handleGizmoMove cam (initBonePositions ℝ) Bone.leftArm Axis.y
      (handleGizmoMouseDown (initBonePositions ℝ) Bone.leftArm Axis.y sx sy)
      cx cy) Bone.head = ⟨0, 16/10, 0⟩ := by rw [hbp]; rfl
  have uT : (handleGizmoMove cam (initBonePositions ℝ) Bone.leftArm Axis.y
      (handleGizmoMouseDown (initBonePositions ℝ) Bone.leftArm Axis.y sx sy)
      cx cy) Bone.torso = ⟨0, 1, 0⟩ := by rw [hbp]; rfl
  have uAL : (handleGizmoMove cam (initBonePositions ℝ) Bone.leftArm Axis.y
      (handleGizmoMouseDown (initBonePositions ℝ) Bone.leftArm Axis.y sx sy)
      cx cy) Bone.leftArm = ⟨-6/10, 17/10, 0⟩ := by rw [hbp]; rfl
  have uAR : (handleGizmoMove cam (initBonePositions ℝ) Bone.leftArm Axis.y
      (handleGizmoMouseDown (initBonePositions ℝ) Bone.leftArm Axis.y sx sy)
      cx cy) Bone.rightArm = ⟨6/10, 13/10, 0⟩ := by rw [hbp]; rfl
  refine ⟨uAL, fun b hb => by rw [hbp]; simp [updateBone, hb], ?_⟩
  intro v hx h1 h2
  have hAL : contributes v.x v.y (boneArmL ℝ) = true := by
    rw [contributes_boneArmL]; exact ⟨⟨h1, h2⟩, hx⟩
  have hLL : contributes v.x v.y (boneLegL ℝ) = false := by
    rw [← Bool.not_eq_true, contributes_boneLegL]
    rintro ⟨⟨-, hle⟩, -⟩; linarith
  have hLR : contributes v.x v.y (boneLegR ℝ) = false := by
    rw [← Bool.not_eq_true, contributes_boneLegR]
    rintro ⟨⟨-, hle⟩, -⟩; linarith
  rcases hx.lt_or_eq with hxe | hxe
  · have hAR : contributes v.x v.y (boneArmR ℝ) = false := by
      rw [← Bool.not_eq_true, contributes_boneArmR]
      rintro ⟨-, hge⟩; linarith
    rcases le_or_lt v.y (14/10) with hy1 | hy1
    · have hT : contributes v.x v.y (boneTorso ℝ) = true := by
        rw [contributes_boneTorso]; exact ⟨by linarith, hy1⟩
      rcases le_or_lt (14/10 : ℝ) v.y with hy2 | hy2
      · have hH : contributes v.x v.y (boneHead ℝ) = true := by
          rw [contributes_boneHead]; exact ⟨hy2, by linarith⟩
        rw [getSkinnedVertex_eq]
        simp only [BONES, List.filter_cons, List.filter_nil, hH, hT, hAL, hAR,
          hLL, hLR, if_true, if_false, Bool.false_eq_true, List.length_cons,
          List.length_nil]
        norm_num [offsetSum, boneOffset, uH, uT, uAL, uAR, boneHead,
          boneTorso, boneArmL, boneArmR, Vec3.mk.injEq]
      · have hH : contributes v.x v.y (boneHead ℝ) = false := by
          rw [← Bool.not_eq_true, contributes_boneHead]
          rintro ⟨hge, -⟩; linarith
        rw [getSkinnedVertex_eq]
        simp only [BONES, List.filter_cons, List.filter_nil, hH, hT, hAL, hAR,
          hLL, hLR, if_true, if_false, Bool.false_eq_true, List.length_cons,
          List.length_nil]
        norm_num [offsetSum, boneOffset, uH, uT, uAL, uAR, boneHead,
          boneTorso, boneArmL, boneArmR, Vec3.mk.injEq]
    · have hT : contributes v.x v.y (boneTorso ℝ) = false := by
        rw [← Bool.not_eq_true, contributes_boneTorso]
        rintro ⟨-, hle⟩; linarith
      have hH : contributes v.x v.y (boneHead ℝ) = true := by
        rw [contributes_boneHead]; exact ⟨le_of_lt hy1, by linarith⟩
      rw [getSkinnedVertex_eq]
      simp only [BONES, List.filter_cons, List.filter_nil, hH, hT, hAL, hAR,
        hLL, hLR, if_true, if_false, Bool.false_eq_true, List.length_cons,
        List.length_nil]
      norm_num [offsetSum, boneOffset, uH, uT, uAL, uAR, boneHead,
          boneTorso, boneArmL, boneArmR, Vec3.mk.injEq]
  · have hAR : contributes v.x v.y (boneArmR ℝ) = true := by
      rw [contributes_boneArmR]; exact ⟨⟨h1, h2⟩, hxe.ge⟩
    rcases le_or_lt v.y (14/10) with hy1 | hy1
    · have hT : contributes v.x v.y (boneTorso ℝ) = true := by
        rw [contributes_boneTorso]; exact ⟨by linarith, hy1⟩
      rcases le_or_lt (14/10 : ℝ) v.y with hy2 | hy2
      · have hH : contributes v.x v.y (boneHead ℝ) = true := by
          rw [contributes_boneHead]; exact ⟨hy2, by linarith⟩
        rw [getSkinnedVertex_eq]
        simp only [BONES, List.filter_cons, List.filter_nil, hH, hT, hAL, hAR,
          hLL, hLR, if_true, if_false, Bool.false_eq_true, List.length_cons,
          List.length_nil]
        norm_num [offsetSum, boneOffset, uH, uT, uAL, uAR, boneHead,
          boneTorso, boneArmL, boneArmR, Vec3.mk.injEq]
      · have hH : contributes v.x v.y (boneHead ℝ) = false := by
          rw [← Bool.not_eq_true, contributes_boneHead]
          rintro ⟨hge, -⟩; linarith
        rw [getSkinnedVertex_eq]
        simp only [BONES, List.filter_cons, List.filter_nil, hH, hT, hAL, hAR,
          hLL, hLR, if_true, if_false, Bool.false_eq_true, List.length_cons,
          List.length_nil]
        norm_num [offsetSum, boneOffset, uH, uT, uAL, uAR, boneHead,
          boneTorso, boneArmL, boneArmR, Vec3.mk.injEq]
    · have hT : contributes v.x v.y (boneTorso ℝ) = false := by
        rw [← Bool.not_eq_true, contributes_boneTorso]
        rintro ⟨-, hle⟩; linarith
      have hH : contributes v.x v.y (boneHead ℝ) = true := by
        rw [contributes_boneHead]; exact ⟨le_of_lt hy1, by linarith⟩
      rw [getSkinnedVertex_eq]
      simp only [BONES, List.filter_cons, List.filter_nil, hH, hT, hAL, hAR,
        hLL, hLR, if_true, if_false, Bool.false_eq_true, List.length_cons,
        List.length_nil]
      norm_num [offsetSum, boneOffset, uH, uT, uAL, uAR, boneHead,
          boneTorso, boneArmL, boneArmR, Vec3.mk.injEq]

/-- Witness for `claim3`: at the identity camera, a drag started at pointer
`(0, 0)` and moved to `(0, -480)` makes the sensitivity formula produce
exactly `+0.4` (the Y axis of `left-arm` projects to a screen vector of
length `6000`), so `left-arm` ends at `(-0.6, 1.7, 0)` and the vertex
`(-1, 1.2, 3)` is skinned to `(-1, 1.6, 3)`. -/
theorem claim3_witness :
    gizmoNewVal idCamera (initBonePositions ℝ) Bone.leftArm Axis.y
      (handleGizmoMouseDown (initBonePositions ℝ) Bone.leftArm Axis.y 0 0)
      0 (-480) = 13/10 + 4/10 ∧
    (handleGizmoMove idCamera (initBonePositions ℝ) Bone.leftArm Axis.y
      (handleGizmoMouseDown (initBonePositions ℝ) Bone.leftArm Axis.y 0 0)
      0 (-480)) Bone.leftArm = ⟨-6/10, 17/10, 0⟩ ∧
    getSkinnedVertex
      (handleGizmoMove idCamera (initBonePositions ℝ) Bone.leftArm Axis.y
        (handleGizmoMouseDown (initBonePositions ℝ) Bone.leftArm Axis.y 0 0)
        0 (-480)) ⟨-1, 12/10, 3⟩ = ⟨-1, 12/10 + 4/10, 3⟩ := by
  have hpos : initBonePositions ℝ Bone.leftArm = ⟨-6/10, 13/10, 0⟩ := rfl
  have hsv : axisScreenVec idCamera (initBonePositions ℝ) Bone.leftArm Axis.y
      = (0, -6000) := by
    simp only [axisScreenVec, project, idCamera, hpos, Vec3.get, Vec3.set]
    norm_num [Real.cos_zero, Real.sin_zero]
  have hlen : axisScreenLen idCamera (initBonePositions ℝ) Bone.leftArm Axis.y
      = 6000 := by
    simp only [axisScreenLen, hsv]
    rw [show (0 : ℝ) * 0 + (-6000) * (-6000) = 6000 ^ 2 by norm_num,
      Real.sqrt_sq (by norm_num : (0 : ℝ) ≤ 6000)]
  have hd : handleGizmoMouseDown (initBonePositions ℝ) Bone.leftArm Axis.y 0 0
      = ⟨0, 0, 13/10⟩ := rfl
  have hnew : gizmoNewVal idCamera (initBonePositions ℝ) Bone.leftArm Axis.y
      (handleGizmoMouseDown (initBonePositions ℝ) Bone.leftArm Axis.y 0 0)
      0 (-480) = 13/10 + 4/10 := by
    rw [hd]
    have hz : idCamera.zoom = 1 := rfl
    simp only [gizmoNewVal, hsv, hlen, hz]
    norm_num
  have happ := claim3 idCamera 0 0 0 (-480) hnew
  exact ⟨hnew, happ.1,
    happ.2.2 ⟨-1, 12/10, 3⟩ (by norm_num) (by norm_num) (by norm_num)⟩

/-- A triangular face of `MeshGeometry`: three vertex indices plus the
optional fill color carried in `face[3]`. -/
structure MeshFace where
  i1 : ℕ
  i2 : ℕ
  i3 : ℕ
  color : Option String

/-- `MeshGeometry`: a vertex list and a face list. -/
structure MeshGeometry where
  vertices : List (Vec3 ℝ)
  faces : List MeshFace

/-- One entry of `facesToRender`: the three projected points, the fill color
(defaulting to `'#cccccc'`) and the face depth. -/
structure RenderFace where
  p1 : Proj
  p2 : Proj
  p3 : Proj
  color : String
  depth : ℝ

/-- Build one `facesToRender` entry: look up the three (skinned) vertices,
project them, and average their depths. -/
noncomputable def renderFace (cam : Camera)
    (transformedVertices : List (Vec3 ℝ)) (face : MeshFace) : RenderFace :=
  let v1 := transformedVertices.getD face.i1 ⟨0, 0, 0⟩
  let v2 := transformedVertices.getD face.i2 ⟨0, 0, 0⟩
  let v3 := transformedVertices.getD face.i3 ⟨0, 0, 0⟩
  let color := face.color.getD "#cccccc"
  let p1 := project cam v1.x v1.y v1.z
  let p2 := project cam v2.x v2.y v2.z
  let p3 := project cam v3.x v3.y v3.z
  ⟨p1, p2, p3, color, (p1.depth + p2.depth + p3.depth) / 3⟩

/-- One insertion step of the depth sort: place `f` before the first face
that is strictly nearer (smaller depth would sort later); equal depths keep
their relative order. -/
noncomputable def insertByDepth (f : RenderFace) :
    List RenderFace → List RenderFace
  | [] => [f]
  | g :: rest =>
      if g.depth < f.depth then f :: g :: rest else g :: insertByDepth f rest

/-- `facesToRender.sort((a, b) => b.depth - a.depth)`: a stable sort by
descending depth (farthest first). -/
noncomputable def sortByDepthDesc (l : List RenderFace) : List RenderFace :=
  l.foldr insertByDepth []

/-- The `RenderedMesh` pipeline: skin every vertex, build every face's
projected entry with its mean depth, and sort by descending depth
(painter's algorithm). -/
noncomputable def renderedMesh (cam : Camera) (bp : Bone → Vec3 ℝ)
    (mesh : MeshGeometry) : List RenderFace :=
  let transformedVertices := mesh.vertices.map (getSkinnedVertex bp)
  let facesToRender := mesh.faces.map (renderFace cam transformedVertices)
  sortByDepthDesc facesToRender

lemma insertByDepth_perm (f : RenderFace) (l : List RenderFace) :
    (insertByDepth f l).Perm (f :: l) := by
  induction l with
  | nil => exact List.Perm.refl _
  | cons g rest ih =>
      by_cases h : g.depth < f.depth
      · simp [insertByDepth, h]
      · simp only [insertByDepth, if_neg h]
        exact (ih.cons g).trans (List.Perm.swap f g rest)

lemma sortByDepthDesc_perm (l : List RenderFace) :
    (sortByDepthDesc l).Perm l := by
  induction l with
  | nil => exact List.Perm.refl _
  | cons f rest ih =>
      exact (insertByDepth_perm f _).trans (ih.cons f)

lemma insertByDepth_sorted (f : RenderFace) (l : List RenderFace)
    (h : l.Pairwise (fun a b => b.depth ≤ a.depth)) :
    (insertByDepth f l).Pairwise (fun a b => b.depth ≤ a.depth) := by
  induction l with
  | nil => simp [insertByDepth]
  | cons g rest ih =>
      rcases List.pairwise_cons.mp h with ⟨hg, hrest⟩
      by_cases hc : g.depth < f.depth
      · simp only [insertByDepth, if_pos hc]
        refine List.pairwise_cons.mpr ⟨?_, h⟩
        intro b hb
        rcases List.mem_cons.mp hb with rfl | hb2
        · exact le_of_lt hc
        · exact le_trans (hg b hb2) (le_of_lt hc)
      · simp only [insertByDepth, if_neg hc]
        refine List.pairwise_cons.mpr ⟨?_, ih hrest⟩
        intro b hb
        rcases List.mem_cons.mp ((insertByDepth_perm f rest).mem_iff.mp hb)
          with rfl | hb2
        · exact le_of_not_lt hc
        · exact hg b hb2

lemma sortByDepthDesc_sorted (l : List RenderFace) :
    (sortByDepthDesc l).Pairwise (fun a b => b.depth ≤ a.depth) := by
  induction l with
  | nil => simp [sortByDepthDesc]
  | cons f rest ih => exact insertByDepth_sorted f _ ih

/-- A face entry with the given depth (used for the concrete sort example). -/
def faceOfDepth (d : ℝ) : RenderFace :=
  ⟨⟨0, 0, 0, 0⟩, ⟨0, 0, 0, 0⟩, ⟨0, 0, 0, 0⟩, "#cccccc", d⟩

/-- **C7** (confirmed). The renderer computes each face's depth as the
arithmetic mean of its three projected vertex depths; the emitted face list
is sorted by descending depth (farthest first) and is a permutation of the
projected face list; faces with depths `5, 1, 3` are drawn in the order
`[5, 3, 1]`; equal depths are kept (in their stable order) without error. -/
theorem claim7 :
    (∀ (cam : Camera) (transformedVertices : List (Vec3 ℝ)) (face : MeshFace),
        (renderFace cam transformedVertices face).depth
          = ((renderFace cam transformedVertices face).p1.depth
              + (renderFace cam transformedVertices face).p2.depth
              + (renderFace cam transformedVertices face).p3.depth) / 3)
    ∧ (∀ (cam : Camera) (bp : Bone → Vec3 ℝ) (mesh : MeshGeometry),
        (renderedMesh cam bp mesh).Pairwise (fun a b => b.depth ≤ a.depth))
    ∧ (∀ (cam : Camera) (bp : Bone → Vec3 ℝ) (mesh : MeshGeometry),
        (renderedMesh cam bp mesh).Perm
          (mesh.faces.map
            (renderFace cam (mesh.vertices.map (getSkinnedVertex bp)))))
    ∧ (sortByDepthDesc
        [faceOfDepth 5, faceOfDepth 1, faceOfDepth 3]).map RenderFace.depth
        = [5, 3, 1]
    ∧ (sortByDepthDesc
        [faceOfDepth 1, faceOfDepth 2, faceOfDepth 2]).map RenderFace.depth
        = [2, 2, 1] := by
  refine ⟨fun cam tv face => rfl,
    fun cam bp mesh => sortByDepthDesc_sorted _,
    fun cam bp mesh => sortByDepthDesc_perm _, ?_, ?_⟩
  · norm_num [sortByDepthDesc, insertByDepth, faceOfDepth]
  · norm_num [sortByDepthDesc, insertByDepth, faceOfDepth]

end Moxie
